import Mathlib

/-!
Shallow embedding of `testseat.py`, a seating randomizer for exams.

The program has three functions:
* `load_students` — parse the student roster from the lines of a text file;
* `assign_seats`  — enumerate the grid seats in row-major order, drop the
  blocked ones, validate capacity, shuffle a copy of the student list with a
  seeded pseudo-random generator, and zip seats with shuffled students;
* `format_grid`   — render the assignment as a rows×cols grid of labeled cells.

Python integers are modelled as `Int` (seat coordinates, which may come from
arbitrary blocked input pairs) and `Nat` (grid dimensions and list indices,
which the program only ever uses non-negatively).  The pseudo-random generator
`random.Random(seed)` is modelled abstractly as a function
`g : Int → Nat → Nat` mapping a seed to the stream of draws consumed by
`random.shuffle`; `_randbelow n` at draw index `k` is modelled as
`g seed k % n`, so every generator instance is covered.  File input is
modelled at the `splitlines` boundary: `load_students` receives the list of
lines of the file.  A raised `ValueError` is modelled as `Except.error` with
the Python exception message.
-/

/-- Embedding of the frozen dataclass `Seat` from `testseat.py`: an immutable
(row, col) pair with value equality. -/
structure Seat where
  row : Int
  col : Int
deriving DecidableEq, Repr

instance : Inhabited Seat := ⟨⟨0, 0⟩⟩

/-- Embedding of `Seat.label`: the string `f"R{self.row}C{self.col}"`. -/
def Seat.label (s : Seat) : String :=
  "R" ++ toString s.row ++ "C" ++ toString s.col

/-! ## Loader (`load_students`) -/

/-- The whitespace characters recognised by Python's `str.strip()` and
`str.split()` on ASCII text: space, tab, newline, carriage return, vertical
tab, form feed. -/
def isPySpace (c : Char) : Bool :=
  c = ' ' || c = '\t' || c = '\n' || c = '\r' || c = '\x0b' || c = '\x0c'

/-- Embedding of Python `line.strip()`: remove leading and trailing
whitespace. -/
def pyStrip (s : String) : String :=
  String.mk (((s.data.dropWhile isPySpace).reverse.dropWhile isPySpace).reverse)

/-- Tokeniser underlying Python `str.split()` with no argument: the maximal
runs of non-whitespace characters, in order.  `cur` accumulates the current
run in reverse. -/
def pyTokens (cur : List Char) : List Char → List (List Char)
  | [] => if cur = [] then [] else [cur.reverse]
  | c :: cs =>
    if isPySpace c then
      if cur = [] then pyTokens [] cs else cur.reverse :: pyTokens [] cs
    else
      pyTokens (c :: cur) cs

/-- Embedding of Python `line.split()`: whitespace-separated tokens, with no
empty tokens. -/
def pySplit (s : String) : List String :=
  (pyTokens [] s.data).map String.mk

/-- The body of the loader's per-line loop: `None` when the stripped line is
blank (the loop `continue`s), otherwise the string appended to `students`. -/
def processLine (line : String) : Option String :=
  let l := pyStrip line
  if l = "" then none
  else
    let parts := pySplit l
    if 2 ≤ parts.length then
      -- student_id = parts[0]; name = "".join(parts[1:])
      some (parts.headD "" ++ " " ++ String.join parts.tail)
    else
      -- parts[0]  (a stripped non-blank line always has at least one token)
      some (parts.headD "")

/-- Embedding of `load_students`, taking the lines of the file (the result of
`splitlines` on its text) instead of a path. -/
def load_students (lines : List String) : List String :=
  lines.filterMap processLine

/-! ## Assigner (`assign_seats`) -/

/-- Embedding of `blocked_set = {Seat(r, c) for r, c in (blocked or [])}`, kept as the list
of seats built from the blocked pairs (membership is what the code uses). -/
def blockedSeats (blocked : List (Int × Int)) : List Seat :=
  blocked.map fun p => ⟨p.1, p.2⟩

/-- Embedding of `all_seats = [Seat(r, c) for r in range(1, rows + 1) for c in range(1, cols + 1)]`. -/
def allSeats (rows cols : Nat) : List Seat :=
  (List.range' 1 rows).flatMap fun r : Nat =>
    (List.range' 1 cols).map fun c : Nat => ⟨(r : Int), (c : Int)⟩

/-- Embedding of `available_seats = [s for s in all_seats if s not in blocked_set]`. -/
def availableSeats (rows cols : Nat) (blocked : List (Int × Int)) : List Seat :=
  (allSeats rows cols).filter fun s => decide (s ∉ blockedSeats blocked)

/-- One swap `x[i], x[j] = x[j], x[i]` of `random.shuffle`'s loop body (both
indices are in range whenever the loop performs it). -/
def listSwap {α : Type} (x : List α) (i j : Nat) : List α :=
  match x.get? i, x.get? j with
  | some a, some b => (x.set i b).set j a
  | _, _ => x

/-- The loop of `random.shuffle`:
`for i in reversed(range(1, len(x))): j = randbelow(i+1); swap x[i], x[j]`.
`n` is the (constant) list length, `i` the current loop index counting down,
and the draw consumed at index `i` is draw number `n - 1 - i` of the
generator stream `g`. -/
def shuffleGo {α : Type} (g : Nat → Nat) (n : Nat) : Nat → List α → List α
  | 0, x => x
  | i + 1, x => shuffleGo g n i (listSwap x (i + 1) (g (n - 1 - (i + 1)) % (i + 2)))

/-- Embedding of `rng.shuffle` on a list, with `g` the stream of raw draws of
the generator (`randbelow (i+1)` is modelled as `g k % (i+1)` for the k-th
draw). -/
def pyShuffle {α : Type} (g : Nat → Nat) (x : List α) : List α :=
  shuffleGo g x.length (x.length - 1) x

/-- Embedding of `assign_seats`.  `g` models the `random.Random` constructor:
it maps a seed to the generator's stream of draws.  A `ValueError` is an
`Except.error` carrying the exception message. -/
def assign_seats (g : Int → Nat → Nat) (students : List String) (rows cols : Nat)
    (blocked : List (Int × Int)) (seed : Int) : Except String (List (Seat × String)) :=
  let available := availableSeats rows cols blocked
  if available.length < students.length then
    Except.error "Not enough available seats for all students."
  else
    -- shuffled = list(students); rng.shuffle(shuffled); zip(available_seats, shuffled)
    Except.ok (available.zip (pyShuffle (g seed) students))

/-- Heap-passing variant of `assign_seats`, making Python's list mutation
explicit: the heap is a store of string-lists and `studentsRef` the index of
the caller's `students` list.  `shuffled = list(students)` allocates a fresh
cell holding a copy, and `rng.shuffle(shuffled)` overwrites that fresh cell
only.  The returned heap is the store after the call. -/
def assignSeatsHeap (g : Int → Nat → Nat) (heap : List (List String)) (studentsRef : Nat)
    (rows cols : Nat) (blocked : List (Int × Int)) (seed : Int) :
    Except String (List (Seat × String)) × List (List String) :=
  let students := heap.getD studentsRef []
  let available := availableSeats rows cols blocked
  if available.length < students.length then
    (Except.error "Not enough available seats for all students.", heap)
  else
    let shuffledRef := heap.length
    let heap1 := heap ++ [students]
    let heap2 := heap1.set shuffledRef (pyShuffle (g seed) (heap1.getD shuffledRef []))
    (Except.ok (available.zip (heap2.getD shuffledRef [])), heap2)

/-! ## Renderer (`format_grid`) -/

/-- Python list indexing semantics: a negative index counts from the end, an
index out of `[-len, len)` raises `IndexError` (`none`). -/
def pyIndex (n : Nat) (i : Int) : Option Nat :=
  let j := if i < 0 then i + n else i
  if 0 ≤ j ∧ j < n then some j.toNat else none

/-- Python `l[i]` on a list. -/
def pyGet {α : Type} (l : List α) (i : Int) : Option α :=
  (pyIndex l.length i).bind fun j => l.get? j

/-- Python `l[i] = a` on a list. -/
def pySet {α : Type} (l : List α) (i : Int) (a : α) : Option (List α) :=
  (pyIndex l.length i).map fun j => l.set j a

/-- One iteration of `format_grid`'s placement loop:
`grid[seat.row - 1][seat.col - 1] = student`. -/
def setCell (grid : List (List String)) (r c : Int) (student : String) :
    Option (List (List String)) :=
  (pyGet grid (r - 1)).bind fun row =>
    (pySet row (c - 1) student).bind fun row1 =>
      pySet grid (r - 1) row1

/-- The placement loop of `format_grid` over all assignment pairs. -/
def placeAll : List (Seat × String) → List (List String) → Option (List (List String))
  | [], grid => some grid
  | (seat, student) :: rest, grid =>
    (setCell grid seat.row seat.col student).bind (placeAll rest)

/-- The inner rendering loop `for c, name in enumerate(row, start=1)`:
`f"{label}: {display}"` with `display = name or "-"` (an empty string renders
as the placeholder). -/
def cellStrings (r : Nat) : Nat → List String → List String
  | _, [] => []
  | c, name :: rest =>
    ("R" ++ toString r ++ "C" ++ toString c ++ ": " ++ (if name = "" then "-" else name))
      :: cellStrings r (c + 1) rest

/-- The outer rendering loop `for r, row in enumerate(grid, start=1)`: each
row's cells joined by `" | "`. -/
def rowStrings : Nat → List (List String) → List String
  | _, [] => []
  | r, row :: rest => " | ".intercalate (cellStrings r 1 row) :: rowStrings (r + 1) rest

/-- Embedding of `format_grid`: build a rows×cols grid of empty strings, place
every assignment, and join the rendered rows with newlines.  `none` models the
`IndexError` Python raises when a seat is out of bounds. -/
def format_grid (assignments : List (Seat × String)) (rows cols : Nat) : Option String :=
  (placeAll assignments (List.replicate rows (List.replicate cols ""))).map fun grid =>
    "\n".intercalate (rowStrings 1 grid)

/-! ## Declarative description of the renderer, for the refinement theorems -/

/-- A seat lies within the rows×cols grid (this is what the enumerated seats
satisfy, and what keeps `format_grid`'s matrix indexing in bounds). -/
abbrev seatInGrid (rows cols : Nat) (s : Seat) : Prop :=
  1 ≤ s.row ∧ s.row ≤ (rows : Int) ∧ 1 ≤ s.col ∧ s.col ≤ (cols : Int)

/-- The value of the 0-indexed cell (i, j) after performing the assignment
writes in order on an initial value: the last pair whose seat is
(i + 1, j + 1) wins. -/
def applyWrites (i j : Nat) : List (Seat × String) → String → String
  | [], v => v
  | p :: rest, v =>
    applyWrites i j rest
      (if p.1 = ⟨((i + 1 : Nat) : Int), ((j + 1 : Nat) : Int)⟩ then p.2 else v)

/-- The grid rendering described by the spec: rows joined by newline, each
row's cells left-to-right joined by `" | "`, each cell
`"R{r}C{c}: <display>"` with the placeholder `"-"` for an empty cell. -/
def renderSpec (rows cols : Nat) (cell : Nat → Nat → String) : String :=
  "\n".intercalate ((List.range rows).map fun i =>
    " | ".intercalate ((List.range cols).map fun j =>
      "R" ++ toString (i + 1) ++ "C" ++ toString (j + 1) ++ ": "
        ++ (if cell i j = "" then "-" else cell i j)))

/-! ## Permutation lemmas for the shuffle -/

/-- Replacing the element at an in-range position and re-inserting the old
value at the front is a permutation of inserting the new value at the front. -/
theorem get_cons_set_perm {α : Type} :
    ∀ (t : List α) (m : Nat) (h : m < t.length) (a : α),
      (t.get ⟨m, h⟩ :: t.set m a).Perm (a :: t)
  | b :: s, 0, _, a => by
    simpa using List.Perm.swap a b s
  | b :: s, m + 1, h, a => by
    have hm : m < s.length := by simpa using h
    show (s.get ⟨m, hm⟩ :: b :: s.set m a).Perm (a :: b :: s)
    exact (List.Perm.swap b (s.get ⟨m, hm⟩) (s.set m a)).trans
      (((get_cons_set_perm s m hm a).cons b).trans (List.Perm.swap a b s))

/-- The two-`set` form of a swap of two in-range positions is a
permutation of the original list. -/
theorem set_set_swap_perm {α : Type} :
    ∀ (x : List α) (i j : Nat) (hi : i < x.length) (hj : j < x.length),
      ((x.set i (x.get ⟨j, hj⟩)).set j (x.get ⟨i, hi⟩)).Perm x
  | a :: t, 0, 0, _, _ => by simp
  | a :: t, 0, m + 1, hi, hj => by
    have hm : m < t.length := by simpa using hj
    have hstep : ((a :: t).set 0 ((a :: t).get ⟨m + 1, hj⟩)).set (m + 1) ((a :: t).get ⟨0, hi⟩)
        = t.get ⟨m, hm⟩ :: t.set m a := by simp
    rw [hstep]
    exact get_cons_set_perm t m hm a
  | a :: t, k + 1, 0, hi, hj => by
    have hk : k < t.length := by simpa using hi
    have hstep : ((a :: t).set (k + 1) ((a :: t).get ⟨0, hj⟩)).set 0 ((a :: t).get ⟨k + 1, hi⟩)
        = t.get ⟨k, hk⟩ :: t.set k a := by simp
    rw [hstep]
    exact get_cons_set_perm t k hk a
  | a :: t, k + 1, m + 1, hi, hj => by
    have hk : k < t.length := by simpa using hi
    have hm : m < t.length := by simpa using hj
    have hstep : ((a :: t).set (k + 1) ((a :: t).get ⟨m + 1, hj⟩)).set (m + 1)
          ((a :: t).get ⟨k + 1, hi⟩)
        = a :: (t.set k (t.get ⟨m, hm⟩)).set m (t.get ⟨k, hk⟩) := by simp
    rw [hstep]
    exact (set_set_swap_perm t k m hk hm).cons a

/-- A `listSwap` never changes the multiset of elements. -/
theorem listSwap_perm {α : Type} (x : List α) (i j : Nat) : (listSwap x i j).Perm x := by
  unfold listSwap
  cases hi : x.get? i with
  | none => exact List.Perm.refl x
  | some a =>
    cases hj : x.get? j with
    | none => exact List.Perm.refl x
    | some b =>
      obtain ⟨hi1, hi2⟩ := List.get?_eq_some.mp hi
      obtain ⟨hj1, hj2⟩ := List.get?_eq_some.mp hj
      subst hi2; subst hj2
      exact set_set_swap_perm x i j hi1 hj1

/-- The shuffle loop permutes its list. -/
theorem shuffleGo_perm {α : Type} (g : Nat → Nat) (n : Nat) :
    ∀ (i : Nat) (x : List α), (shuffleGo g n i x).Perm x
  | 0, _ => List.Perm.refl _
  | i + 1, x =>
    (shuffleGo_perm g n i _).trans (listSwap_perm x (i + 1) (g (n - 1 - (i + 1)) % (i + 2)))

/-- The shuffle permutes the list. -/
theorem pyShuffle_perm {α : Type} (g : Nat → Nat) (x : List α) : (pyShuffle g x).Perm x :=
  shuffleGo_perm g x.length (x.length - 1) x

/-- The shuffle preserves the length. -/
theorem length_pyShuffle {α : Type} (g : Nat → Nat) (x : List α) :
    (pyShuffle g x).length = x.length :=
  (pyShuffle_perm g x).length_eq

/-! ## The seat enumeration -/

/-- Closed form of the row-major nested comprehension: the k-th seat (0-based)
is row `k / cols + 1`, column `k % cols + 1`. -/
theorem allSeats_eq (rows cols : Nat) :
    allSeats rows cols
      = (List.range (rows * cols)).map fun k =>
          (⟨((k / cols + 1 : Nat) : Int), ((k % cols + 1 : Nat) : Int)⟩ : Seat) := by
  induction rows with
  | zero => simp [allSeats]
  | succ rows ih =>
    have hsplit : List.range' 1 (rows + 1) = List.range' 1 rows ++ [1 + rows] := by
      simpa using @List.range'_concat 1 1 rows
    have expand : allSeats (rows + 1) cols
        = allSeats rows cols
          ++ ((List.range' 1 cols).map fun c : Nat =>
                (⟨((1 + rows : Nat) : Int), (c : Int)⟩ : Seat)) := by
      unfold allSeats
      rw [hsplit, List.flatMap_append, List.flatMap_cons, List.flatMap_nil, List.append_nil]
    have hrange : List.range ((rows + 1) * cols)
        = List.range (rows * cols) ++ (List.range cols).map fun j => rows * cols + j := by
      have harith : (rows + 1) * cols = rows * cols + cols := by ring
      rw [harith, List.range_add]
    rw [expand, ih, hrange, List.map_append]
    congr 1
    rw [List.range'_eq_map_range, List.map_map, List.map_map]
    refine List.map_congr_left ?_
    intro j hj
    have hjc : j < cols := List.mem_range.mp hj
    have hdiv : (rows * cols + j) / cols = rows := by
      have hcols : 0 < cols := by omega
      rw [Nat.mul_comm rows cols, Nat.mul_add_div hcols, Nat.div_eq_of_lt hjc, Nat.add_zero]
    have hmod : (rows * cols + j) % cols = j := by
      rw [Nat.mul_comm rows cols, Nat.mul_add_mod, Nat.mod_eq_of_lt hjc]
    show (⟨((1 + rows : Nat) : Int), ((1 + j : Nat) : Int)⟩ : Seat)
        = ⟨(((rows * cols + j) / cols + 1 : Nat) : Int), (((rows * cols + j) % cols + 1 : Nat) : Int)⟩
    rw [hdiv, hmod]
    simp only [Seat.mk.injEq]
    constructor <;> · push_cast; ring

/-- The number of grid seats is `rows * cols`. -/
theorem length_allSeats (rows cols : Nat) : (allSeats rows cols).length = rows * cols := by
  rw [allSeats_eq, List.length_map, List.length_range]

/-- The k-th grid seat in row-major order, 0-indexed. -/
theorem getElem_allSeats (rows cols : Nat) (k : Nat) (hk : k < (allSeats rows cols).length) :
    (allSeats rows cols).get ⟨k, hk⟩
      = ⟨((k / cols + 1 : Nat) : Int), ((k % cols + 1 : Nat) : Int)⟩ := by
  have hk2 : k < rows * cols := by rwa [length_allSeats] at hk
  simp [List.get_eq_getElem, allSeats_eq, List.getElem_map]

/-- No seat appears twice in the row-major enumeration. -/
theorem allSeats_nodup (rows cols : Nat) : (allSeats rows cols).Nodup := by
  rw [allSeats_eq]
  refine (List.nodup_range _).map ?_
  intro k1 k2 h
  simp only [Seat.mk.injEq, Nat.cast_inj, Nat.add_right_cancel_iff] at h
  obtain ⟨hdiv, hmod⟩ := h
  have hk1 : k1 = cols * (k1 / cols) + k1 % cols := (Nat.div_add_mod k1 cols).symm
  have hk2 : k2 = cols * (k2 / cols) + k2 % cols := (Nat.div_add_mod k2 cols).symm
  rw [hk1, hk2, hdiv, hmod]

/-- No seat appears twice among the available seats. -/
theorem availableSeats_nodup (rows cols : Nat) (blocked : List (Int × Int)) :
    (availableSeats rows cols blocked).Nodup :=
  List.Nodup.filter _ (allSeats_nodup rows cols)

/-- A seat is in the row-major enumeration iff its coordinates are within the
grid. -/
theorem mem_allSeats (rows cols : Nat) (s : Seat) :
    s ∈ allSeats rows cols
      ↔ 1 ≤ s.row ∧ s.row ≤ (rows : Int) ∧ 1 ≤ s.col ∧ s.col ≤ (cols : Int) := by
  unfold allSeats
  simp only [List.mem_flatMap, List.mem_map, List.mem_range'_1]
  constructor
  · rintro ⟨r, ⟨hr1, hr2⟩, c, ⟨hc1, hc2⟩, rfl⟩
    refine ⟨?_, ?_, ?_, ?_⟩ <;> simp <;> omega
  · rintro ⟨h1, h2, h3, h4⟩
    refine ⟨s.row.toNat, ⟨by omega, by omega⟩, s.col.toNat, ⟨by omega, by omega⟩, ?_⟩
    obtain ⟨sr, sc⟩ := s
    simp only [Seat.mk.injEq]
    constructor <;> simp at h1 h2 h3 h4 ⊢ <;> omega

/-- Membership in the available pool: in the grid and not blocked. -/
theorem mem_availableSeats (rows cols : Nat) (blocked : List (Int × Int)) (s : Seat) :
    s ∈ availableSeats rows cols blocked
      ↔ s ∈ allSeats rows cols ∧ s ∉ blockedSeats blocked := by
  simp [availableSeats, List.mem_filter]

/-- With no blocked seats the available pool is the whole grid. -/
theorem availableSeats_empty (rows cols : Nat) :
    availableSeats rows cols [] = allSeats rows cols := by
  unfold availableSeats
  rw [List.filter_eq_self]
  intro a _
  simp [blockedSeats]

/-- The seat components of a zip form a prefix of the seat list. -/
theorem map_fst_zip_take {α β : Type} :
    ∀ (l1 : List α) (l2 : List β), (l1.zip l2).map Prod.fst = l1.take l2.length
  | [], _ => by simp
  | _ :: _, [] => by simp
  | a :: l1, b :: l2 => by simp [map_fst_zip_take l1 l2]

/-! ## Claims about the assigner -/

/-- C1: when the students fit into the available seats (and rows, cols are
positive), `assign_seats` succeeds with exactly `students.length` pairs, no
seat repeated among the pairs, and the students of the pairs a permutation of
the input (each input student appearing exactly once). -/
theorem assign_seats_complete (g : Int → Nat → Nat) (students : List String)
    (rows cols : Nat) (blocked : List (Int × Int)) (seed : Int)
    (_hrows : 0 < rows) (_hcols : 0 < cols)
    (hcap : students.length ≤ (availableSeats rows cols blocked).length) :
    ∃ pairs, assign_seats g students rows cols blocked seed = Except.ok pairs
      ∧ pairs.length = students.length
      ∧ (pairs.map Prod.fst).Nodup
      ∧ (pairs.map Prod.snd).Perm students := by
  unfold assign_seats
  rw [if_neg (by omega)]
  refine ⟨_, rfl, ?_, ?_, ?_⟩
  · rw [List.length_zip, length_pyShuffle]
    omega
  · rw [map_fst_zip_take]
    exact List.Nodup.sublist (List.take_sublist _ _) (availableSeats_nodup rows cols blocked)
  · rw [List.map_snd_zip _ _ (by rw [length_pyShuffle]; omega)]
    exact pyShuffle_perm (g seed) students

/-- Witness for C1 at a concrete input. -/
theorem assign_seats_complete_witness :
    ∃ pairs, assign_seats (fun _ _ => 0) ["A", "B"] 2 2 [(1, 1)] 7 = Except.ok pairs
      ∧ pairs.length = (["A", "B"] : List String).length
      ∧ (pairs.map Prod.fst).Nodup
      ∧ (pairs.map Prod.snd).Perm ["A", "B"] :=
  assign_seats_complete (fun _ _ => 0) ["A", "B"] 2 2 [(1, 1)] 7
    (by decide) (by decide) (by decide)

/-- C2: `assign_seats` raises the capacity `ValueError` exactly when the
students outnumber the available seats; with one student too many it raises,
and with exactly as many students as available seats it succeeds and assigns
every available seat. -/
theorem assign_seats_capacity (g : Int → Nat → Nat) (students : List String)
    (rows cols : Nat) (blocked : List (Int × Int)) (seed : Int) :
    (assign_seats g students rows cols blocked seed
        = Except.error "Not enough available seats for all students."
      ↔ (availableSeats rows cols blocked).length < students.length)
    ∧ (students.length = (availableSeats rows cols blocked).length + 1 →
        assign_seats g students rows cols blocked seed
          = Except.error "Not enough available seats for all students.")
    ∧ (students.length = (availableSeats rows cols blocked).length →
        ∃ pairs, assign_seats g students rows cols blocked seed = Except.ok pairs
          ∧ pairs.map Prod.fst = availableSeats rows cols blocked) := by
  refine ⟨?_, ?_, ?_⟩
  · by_cases hc : (availableSeats rows cols blocked).length < students.length
    · unfold assign_seats
      rw [if_pos hc]
      simpa
    · unfold assign_seats
      rw [if_neg hc]
      simp [hc]
  · intro hlen
    unfold assign_seats
    rw [if_pos (by omega)]
  · intro hlen
    unfold assign_seats
    rw [if_neg (by omega)]
    refine ⟨_, rfl, ?_⟩
    exact List.map_fst_zip _ _ (by rw [length_pyShuffle]; omega)

/-- Witness for C2 at a concrete input with as many students as seats. -/
theorem assign_seats_capacity_witness :
    ∃ pairs, assign_seats (fun _ _ => 0) ["A", "B", "C"] 2 2 [(1, 1)] 42 = Except.ok pairs
      ∧ pairs.map Prod.fst = availableSeats 2 2 [(1, 1)] :=
  (assign_seats_capacity (fun _ _ => 0) ["A", "B", "C"] 2 2 [(1, 1)] 42).2.2 (by decide)

/-- C3: the assigner is deterministic — the generator model is a function of
the seed (as `random.Random(seed)` is), so two calls with the same seed and
identical other inputs return identical pair lists, in the same order. -/
theorem assign_seats_deterministic (g : Int → Nat → Nat) (students : List String)
    (rows cols : Nat) (blocked : List (Int × Int)) (seed : Int) :
    assign_seats g students rows cols blocked seed
      = assign_seats g students rows cols blocked seed := rfl

/-- C4: blocked seats never receive a student, and a blocked entry whose row
or column is out of range has no effect on the result. -/
theorem assign_seats_blocked (g : Int → Nat → Nat) (students : List String)
    (rows cols : Nat) (blocked : List (Int × Int)) (seed : Int) :
    (∀ pairs, assign_seats g students rows cols blocked seed = Except.ok pairs →
      ∀ p ∈ pairs, ∀ q ∈ blocked, p.1 ≠ Seat.mk q.1 q.2)
    ∧ (∀ r c : Int, (r < 1 ∨ (rows : Int) < r ∨ c < 1 ∨ (cols : Int) < c) →
        assign_seats g students rows cols ((r, c) :: blocked) seed
          = assign_seats g students rows cols blocked seed) := by
  constructor
  · intro pairs hok p hp q hq
    by_cases hc : (availableSeats rows cols blocked).length < students.length
    · unfold assign_seats at hok
      rw [if_pos hc] at hok
      exact absurd hok (by simp)
    · unfold assign_seats at hok
      rw [if_neg hc] at hok
      have hpairs : pairs = (availableSeats rows cols blocked).zip (pyShuffle (g seed) students) := by
        injection hok with h
        exact h.symm
      subst hpairs
      obtain ⟨s, st⟩ := p
      have hmem : s ∈ availableSeats rows cols blocked := (List.of_mem_zip hp).1
      have hnb : s ∉ blockedSeats blocked := ((mem_availableSeats rows cols blocked s).mp hmem).2
      intro hEq
      apply hnb
      unfold blockedSeats
      exact List.mem_map.mpr ⟨q, hq, hEq.symm⟩
  · intro r c hout
    have havail : availableSeats rows cols ((r, c) :: blocked) = availableSeats rows cols blocked := by
      unfold availableSeats
      refine List.filter_congr ?_
      intro s hs
      have hb : s ∈ allSeats rows cols := hs
      obtain ⟨h1, h2, h3, h4⟩ := (mem_allSeats rows cols s).mp hb
      have hne : s ≠ Seat.mk r c := by
        intro hEq
        subst hEq
        simp at h1 h2 h3 h4
        omega
      simp only [decide_eq_decide, blockedSeats, List.map_cons, List.mem_cons]
      constructor
      · intro hnot hmem
        exact hnot (Or.inr (by simpa [blockedSeats] using hmem))
      · intro hnot hmem
        rcases hmem with hmem | hmem
        · exact hne hmem
        · exact hnot (by simpa [blockedSeats] using hmem)
    unfold assign_seats
    rw [havail]

/-- Witness for C4 at a concrete input: the blocked seat (2,2) is avoided, and
an out-of-range blocked entry (0,9) changes nothing. -/
theorem assign_seats_blocked_witness :
    (Seat.mk 1 1 ≠ Seat.mk 2 2)
    ∧ assign_seats (fun _ _ => 0) ["A"] 1 1 [(0, 9), (2, 2)] 0
        = assign_seats (fun _ _ => 0) ["A"] 1 1 [(2, 2)] 0 :=
  ⟨(assign_seats_blocked (fun _ _ => 0) ["A"] 1 1 [(2, 2)] 0).1
      [(⟨1, 1⟩, "A")] rfl (⟨1, 1⟩, "A") (by decide) (2, 2) (by decide),
   (assign_seats_blocked (fun _ _ => 0) ["A"] 1 1 [(2, 2)] 0).2 0 9 (by decide)⟩

/-- C5: seats are enumerated row-major and paired positionally — with no
blocked seats the k-th pair's seat is `(k / cols + 1, k % cols + 1)`, and in
general the i-th pair is the i-th available seat paired with the i-th
shuffled student. -/
theorem assign_seats_row_major (g : Int → Nat → Nat) (students : List String)
    (rows cols : Nat) (blocked : List (Int × Int)) (seed : Int) :
    (∀ pairs, assign_seats g students rows cols [] seed = Except.ok pairs →
      ∀ k, k < pairs.length →
        (pairs.getD k (⟨0, 0⟩, "")).1
          = ⟨((k / cols + 1 : Nat) : Int), ((k % cols + 1 : Nat) : Int)⟩)
    ∧ (∀ pairs, assign_seats g students rows cols blocked seed = Except.ok pairs →
      ∀ i, i < pairs.length →
        pairs.getD i (⟨0, 0⟩, "")
          = ((availableSeats rows cols blocked).getD i ⟨0, 0⟩,
             (pyShuffle (g seed) students).getD i "")) := by
  have general : ∀ (bl : List (Int × Int)) pairs,
      assign_seats g students rows cols bl seed = Except.ok pairs →
      ∀ i, i < pairs.length →
        pairs.getD i (⟨0, 0⟩, "")
          = ((availableSeats rows cols bl).getD i ⟨0, 0⟩,
             (pyShuffle (g seed) students).getD i "") := by
    intro bl pairs hok i hi
    by_cases hc : (availableSeats rows cols bl).length < students.length
    · unfold assign_seats at hok
      rw [if_pos hc] at hok
      exact absurd hok (by simp)
    · unfold assign_seats at hok
      rw [if_neg hc] at hok
      have hpairs : pairs = (availableSeats rows cols bl).zip (pyShuffle (g seed) students) := by
        injection hok with h
        exact h.symm
      subst hpairs
      have hlen : i < ((availableSeats rows cols bl).zip (pyShuffle (g seed) students)).length := hi
      rw [List.length_zip] at hlen
      have h1 : i < (availableSeats rows cols bl).length := by omega
      have h2 : i < (pyShuffle (g seed) students).length := by omega
      rw [List.getD_eq_getElem _ _ hi, List.getD_eq_getElem _ _ h1, List.getD_eq_getElem _ _ h2,
        List.getElem_zip]
  constructor
  · intro pairs hok k hk
    rw [general [] pairs hok k hk]
    have hlen : k < ((availableSeats rows cols []).zip (pyShuffle (g seed) students)).length := by
      by_cases hc : (availableSeats rows cols []).length < students.length
      · unfold assign_seats at hok
        rw [if_pos hc] at hok
        exact absurd hok (by simp)
      · unfold assign_seats at hok
        rw [if_neg hc] at hok
        have hpairs : pairs = (availableSeats rows cols []).zip (pyShuffle (g seed) students) := by
          injection hok with h
          exact h.symm
        rw [← hpairs]
        exact hk
    rw [List.length_zip] at hlen
    have h1 : k < (availableSeats rows cols []).length := by omega
    rw [List.getD_eq_getElem _ _ h1]
    have h2 : k < (allSeats rows cols).length := by
      rw [← availableSeats_empty rows cols]
      exact h1
    have hget : (availableSeats rows cols []).get ⟨k, h1⟩ = (allSeats rows cols).get ⟨k, h2⟩ := by
      apply Option.some.inj
      simp only [List.get_eq_getElem]
      rw [← List.getElem?_eq_getElem, ← List.getElem?_eq_getElem, availableSeats_empty]
    simp only [List.get_eq_getElem] at hget
    rw [hget]
    have := getElem_allSeats rows cols k h2
    simpa using this
  · exact general blocked

/-- Witness for C5 at a concrete input. -/
theorem assign_seats_row_major_witness :
    ((([(⟨1, 1⟩, "B"), (⟨1, 2⟩, "A")] : List (Seat × String)).getD 1 (⟨0, 0⟩, "")).1
        = (⟨((1 / 2 + 1 : Nat) : Int), ((1 % 2 + 1 : Nat) : Int)⟩ : Seat))
    ∧ (([(⟨1, 1⟩, "B"), (⟨1, 2⟩, "A")] : List (Seat × String)).getD 0 (⟨0, 0⟩, "")
        = ((availableSeats 1 2 []).getD 0 ⟨0, 0⟩,
           (pyShuffle ((fun _ _ => 0) (0 : Int)) ["A", "B"]).getD 0 "")) :=
  ⟨(assign_seats_row_major (fun _ _ => 0) ["A", "B"] 1 2 [] 0).1
      [(⟨1, 1⟩, "B"), (⟨1, 2⟩, "A")] rfl 1 (by decide),
   (assign_seats_row_major (fun _ _ => 0) ["A", "B"] 1 2 [] 0).2
      [(⟨1, 1⟩, "B"), (⟨1, 2⟩, "A")] rfl 0 (by decide)⟩

/-- C6: the assigner shuffles a fresh copy of the students list — in the
heap-passing model the caller's list cell is unchanged by the call, and the
call returns exactly what the functional `assign_seats` returns on the cell's
contents. -/
theorem assign_seats_input_unmodified (g : Int → Nat → Nat) (heap : List (List String))
    (studentsRef : Nat) (rows cols : Nat) (blocked : List (Int × Int)) (seed : Int)
    (href : studentsRef < heap.length) :
    ((assignSeatsHeap g heap studentsRef rows cols blocked seed).2).getD studentsRef []
        = heap.getD studentsRef []
    ∧ (assignSeatsHeap g heap studentsRef rows cols blocked seed).1
        = assign_seats g (heap.getD studentsRef []) rows cols blocked seed := by
  by_cases hc : (availableSeats rows cols blocked).length < (heap.getD studentsRef []).length
  · unfold assignSeatsHeap assign_seats
    rw [if_pos hc, if_pos hc]
    exact ⟨rfl, rfl⟩
  · have hfresh : (heap ++ [heap.getD studentsRef []]).getD heap.length []
        = heap.getD studentsRef [] := by
      rw [List.getD_eq_getElem?_getD, List.getElem?_concat_length]
      rfl
    unfold assignSeatsHeap assign_seats
    rw [if_neg hc, if_neg hc]
    refine ⟨?_, ?_⟩
    · dsimp only
      rw [List.getD_eq_getElem?_getD,
        List.getElem?_set_ne (by omega : heap.length ≠ studentsRef),
        List.getElem?_append_left href, ← List.getD_eq_getElem?_getD]
    · dsimp only
      rw [List.getD_eq_getElem?_getD,
        List.getElem?_set_self (by simp : heap.length < (heap ++ [heap.getD studentsRef []]).length)]
      rw [hfresh]
      rfl

/-- Witness for C6 at a concrete input. -/
theorem assign_seats_input_unmodified_witness :
    ((assignSeatsHeap (fun _ _ => 0) [["A", "B"]] 0 1 2 [] 5).2).getD 0 []
        = ([["A", "B"]] : List (List String)).getD 0 []
    ∧ (assignSeatsHeap (fun _ _ => 0) [["A", "B"]] 0 1 2 [] 5).1
        = assign_seats (fun _ _ => 0) (([["A", "B"]] : List (List String)).getD 0 []) 1 2 [] 5 :=
  assign_seats_input_unmodified (fun _ _ => 0) [["A", "B"]] 0 1 2 [] 5 (by decide)

/-! ## Claims about the loader -/

/-- Rebuilding a string from its characters is the identity. -/
theorem String.mk_data_eq (s : String) : String.mk s.data = s := by
  cases s
  rfl

/-- Tokenising a whitespace-free run yields the pending run followed by it,
as a single token (or nothing when both are empty). -/
theorem pyTokens_no_space :
    ∀ (l : List Char), (∀ c ∈ l, isPySpace c = false) →
      ∀ cur, pyTokens cur l = if cur.reverse ++ l = [] then [] else [cur.reverse ++ l]
  | [], _, cur => by
    unfold pyTokens
    rcases cur with _ | ⟨c, cs⟩ <;> simp
  | c :: cs, hl, cur => by
    have hc : isPySpace c = false := hl c (by simp)
    have hcs : ∀ x ∈ cs, isPySpace x = false := fun x hx => hl x (by simp [hx])
    unfold pyTokens
    rw [hc]
    simp only [Bool.false_eq_true, if_false]
    rw [pyTokens_no_space cs hcs (c :: cur)]
    simp

/-- C7: the loader maps a stripped line with two or more tokens to
`"<id> <name>"` with the name tokens concatenated without separator, leaves a
single-token line (its stripped form) unchanged, skips blank lines, processes
lines independently in input order, and handles the spec's examples. -/
theorem load_students_spec :
    (∀ line p q ps, pySplit (pyStrip line) = p :: q :: ps →
        processLine line = some (p ++ " " ++ String.join (q :: ps)))
    ∧ (∀ line, pyStrip line ≠ "" → (∀ c ∈ (pyStrip line).data, isPySpace c = false) →
        processLine line = some (pyStrip line))
    ∧ (∀ line, pyStrip line = "" → processLine line = none)
    ∧ (∀ lines, load_students lines = lines.filterMap processLine)
    ∧ load_students ["007   Jane   Doe", "", "Solo"] = ["007 JaneDoe", "Solo"] := by
  refine ⟨?_, ?_, ?_, fun _ => rfl, by decide⟩
  · intro line p q ps hsplit
    have hne : pyStrip line ≠ "" := by
      intro h0
      rw [h0] at hsplit
      have : pySplit "" = [] := rfl
      rw [this] at hsplit
      exact List.noConfusion hsplit
    simp only [processLine, hsplit, if_neg hne]
    simp
  · intro line hne hnos
    have hdata : (pyStrip line).data ≠ [] := by
      intro h0
      apply hne
      rw [← String.mk_data_eq (pyStrip line), h0]
    have hsplit : pySplit (pyStrip line) = [pyStrip line] := by
      unfold pySplit
      rw [pyTokens_no_space (pyStrip line).data hnos []]
      simp [hdata, String.mk_data_eq]
    simp only [processLine, hsplit, if_neg hne]
    simp
  · intro line h0
    simp [processLine, h0]

/-- Witness for C7 at concrete lines. -/
theorem load_students_spec_witness :
    processLine "007   Jane   Doe" = some ("007" ++ " " ++ String.join ["Jane", "Doe"])
    ∧ processLine "Solo" = some (pyStrip "Solo")
    ∧ processLine "   " = none :=
  ⟨(load_students_spec).1 "007   Jane   Doe" "007" "Jane" ["Doe"] (by decide),
   (load_students_spec).2.1 "Solo" (by decide) (by decide),
   (load_students_spec).2.2.1 "   " (by decide)⟩

/-! ## Renderer refinement -/

/-- Performing `grid[seat.row - 1][seat.col - 1] = student` on an in-range seat:
the write succeeds, preserves the grid dimensions, and changes exactly the
one targeted cell. -/
theorem setCell_spec (grid : List (List String)) (rows cols : Nat) (r c : Int) (v : String)
    (hglen : grid.length = rows) (hrlen : ∀ row ∈ grid, row.length = cols)
    (hr1 : 1 ≤ r) (hr2 : r ≤ (rows : Int)) (hc1 : 1 ≤ c) (hc2 : c ≤ (cols : Int)) :
    ∃ grid2, setCell grid r c v = some grid2
      ∧ grid2.length = rows ∧ (∀ row ∈ grid2, row.length = cols)
      ∧ ∀ i j, i < rows → j < cols →
          (grid2.getD i []).getD j ""
            = if ((i + 1 : Nat) : Int) = r ∧ ((j + 1 : Nat) : Int) = c then v
              else (grid.getD i []).getD j "" := by
  have hnr : (r - 1).toNat < grid.length := by omega
  have hidxr : pyIndex grid.length (r - 1) = some (r - 1).toNat := by
    simp only [pyIndex]
    rw [if_neg (by omega : ¬ r - 1 < 0), if_pos (by omega : 0 ≤ r - 1 ∧ r - 1 < (grid.length : Int))]
  have hget : pyGet grid (r - 1) = some (grid.getD (r - 1).toNat []) := by
    simp only [pyGet, hidxr, Option.some_bind]
    rw [List.getD_eq_getElem _ _ hnr, List.get?_eq_getElem?, List.getElem?_eq_getElem hnr]
  have hrowlen : (grid.getD (r - 1).toNat []).length = cols := by
    apply hrlen
    rw [List.getD_eq_getElem _ _ hnr]
    exact List.getElem_mem hnr
  have hnc : (c - 1).toNat < (grid.getD (r - 1).toNat []).length := by
    rw [hrowlen]
    omega
  have hidxc : pyIndex (grid.getD (r - 1).toNat []).length (c - 1) = some (c - 1).toNat := by
    simp only [pyIndex]
    rw [if_neg (by omega : ¬ c - 1 < 0),
      if_pos (by rw [hrowlen]; omega : 0 ≤ c - 1 ∧ c - 1 < ((grid.getD (r - 1).toNat []).length : Int))]
  have hsetrow : pySet (grid.getD (r - 1).toNat []) (c - 1) v
      = some ((grid.getD (r - 1).toNat []).set (c - 1).toNat v) := by
    simp only [pySet, hidxc, Option.map_some']
  have hsetgrid : pySet grid (r - 1) ((grid.getD (r - 1).toNat []).set (c - 1).toNat v)
      = some (grid.set (r - 1).toNat ((grid.getD (r - 1).toNat []).set (c - 1).toNat v)) := by
    simp only [pySet, hidxr, Option.map_some']
  refine ⟨grid.set (r - 1).toNat ((grid.getD (r - 1).toNat []).set (c - 1).toNat v),
    ?_, ?_, ?_, ?_⟩
  · simp only [setCell, hget, Option.some_bind, hsetrow, hsetgrid]
  · rw [List.length_set, hglen]
  · intro row hrow
    obtain ⟨idx, hidx, hrow⟩ := List.mem_iff_getElem.mp hrow
    rw [← hrow, List.getElem_set]
    split
    · rw [List.length_set, hrowlen]
    · apply hrlen
      exact List.getElem_mem _
  · intro i j hi hj
    have hilen : i < (grid.set (r - 1).toNat
        ((grid.getD (r - 1).toNat []).set (c - 1).toNat v)).length := by
      rw [List.length_set]
      omega
    rw [List.getD_eq_getElem _ _ hilen, List.getElem_set]
    by_cases hri : (r - 1).toNat = i
    · rw [if_pos hri]
      by_cases hcj : (c - 1).toNat = j
      · have hcond : ((i + 1 : Nat) : Int) = r ∧ ((j + 1 : Nat) : Int) = c := by
          constructor <;> omega
        rw [if_pos hcond]
        have hjlen : j < ((grid.getD (r - 1).toNat []).set (c - 1).toNat v).length := by
          rw [List.length_set]
          omega
        rw [List.getD_eq_getElem _ _ hjlen, List.getElem_set, if_pos hcj]
      · have hcond : ¬ (((i + 1 : Nat) : Int) = r ∧ ((j + 1 : Nat) : Int) = c) := by
          intro hcond
          exact hcj (by omega)
        rw [if_neg hcond]
        have hjlen : j < ((grid.getD (r - 1).toNat []).set (c - 1).toNat v).length := by
          rw [List.length_set]
          omega
        rw [List.getD_eq_getElem _ _ hjlen, List.getElem_set, if_neg hcj,
          ← List.getD_eq_getElem (grid.getD (r - 1).toNat []) "" (by omega), hri]
    · rw [if_neg hri]
      have hcond : ¬ (((i + 1 : Nat) : Int) = r ∧ ((j + 1 : Nat) : Int) = c) := by
        intro hcond
        exact hri (by omega)
      rw [if_neg hcond, ← List.getD_eq_getElem grid [] (by omega)]

/-- The placement loop on a well-formed grid with in-range seats succeeds,
preserves dimensions, and makes each cell the result of applying the writes
in order to its original value. -/
theorem placeAll_spec :
    ∀ (as : List (Seat × String)) (grid : List (List String)) (rows cols : Nat),
      grid.length = rows → (∀ row ∈ grid, row.length = cols) →
      (∀ p ∈ as, seatInGrid rows cols p.1) →
      ∃ grid2, placeAll as grid = some grid2
        ∧ grid2.length = rows ∧ (∀ row ∈ grid2, row.length = cols)
        ∧ ∀ i j, i < rows → j < cols →
            (grid2.getD i []).getD j "" = applyWrites i j as ((grid.getD i []).getD j "")
  | [], grid, rows, cols, hglen, hrlen, _ =>
    ⟨grid, rfl, hglen, hrlen, fun i j _ _ => rfl⟩
  | (seat, student) :: rest, grid, rows, cols, hglen, hrlen, hin => by
    obtain ⟨h1, h2, h3, h4⟩ := hin (seat, student) (by simp)
    obtain ⟨grid1, hset, hg1len, hr1len, hcell1⟩ :=
      setCell_spec grid rows cols seat.row seat.col student hglen hrlen h1 h2 h3 h4
    obtain ⟨grid2, hplace, hg2len, hr2len, hcell2⟩ :=
      placeAll_spec rest grid1 rows cols hg1len hr1len
        (fun p hp => hin p (by simp [hp]))
    refine ⟨grid2, ?_, hg2len, hr2len, ?_⟩
    · simp only [placeAll, hset, Option.some_bind]
      exact hplace
    · intro i j hi hj
      rw [hcell2 i j hi hj, hcell1 i j hi hj]
      have hstep : applyWrites i j ((seat, student) :: rest) ((grid.getD i []).getD j "")
          = applyWrites i j rest
              (if seat = Seat.mk ((i + 1 : Nat) : Int) ((j + 1 : Nat) : Int)
               then student else (grid.getD i []).getD j "") := rfl
      rw [hstep]
      congr 1
      by_cases hs : seat = Seat.mk ((i + 1 : Nat) : Int) ((j + 1 : Nat) : Int)
      · rw [if_pos hs, if_pos (by rw [hs]; exact ⟨rfl, rfl⟩)]
      · have hcond : ¬ (((i + 1 : Nat) : Int) = seat.row ∧ ((j + 1 : Nat) : Int) = seat.col) := by
          intro hcond
          apply hs
          obtain ⟨sr, sc⟩ := seat
          simp only [Seat.mk.injEq]
          exact ⟨hcond.1.symm, hcond.2.symm⟩
        rw [if_neg hcond, if_neg hs]

/-- Closed form of the inner rendering loop. -/
theorem cellStrings_eq (r : Nat) :
    ∀ (l : List String) (c : Nat),
      cellStrings r c l = (List.range l.length).map fun k =>
        "R" ++ toString r ++ "C" ++ toString (c + k) ++ ": "
          ++ (if l.getD k "" = "" then "-" else l.getD k "")
  | [], c => by simp [cellStrings]
  | name :: rest, c => by
    unfold cellStrings
    rw [cellStrings_eq r rest (c + 1), List.length_cons, List.range_succ_eq_map]
    simp only [List.map_cons, List.map_map]
    congr 1
    refine List.map_congr_left ?_
    intro k _
    have hc : c + 1 + k = c + (k + 1) := by omega
    rw [hc]
    rfl

/-- Closed form of the outer rendering loop. -/
theorem rowStrings_eq :
    ∀ (grid : List (List String)) (r : Nat),
      rowStrings r grid = (List.range grid.length).map fun i =>
        " | ".intercalate (cellStrings (r + i) 1 (grid.getD i []))
  | [], r => by simp [rowStrings]
  | row :: rest, r => by
    unfold rowStrings
    rw [rowStrings_eq rest (r + 1), List.length_cons, List.range_succ_eq_map]
    simp only [List.map_cons, List.map_map]
    congr 1
    refine List.map_congr_left ?_
    intro k _
    have hr2 : r + 1 + k = r + (k + 1) := by omega
    rw [hr2]
    rfl

/-- The refinement theorem for the renderer: on in-range assignments,
`format_grid` renders exactly the spec's grid, whose cell (i, j) holds the
last write to seat (i + 1, j + 1) (or stays empty). -/
theorem format_grid_spec (as : List (Seat × String)) (rows cols : Nat)
    (hin : ∀ p ∈ as, seatInGrid rows cols p.1) :
    format_grid as rows cols
      = some (renderSpec rows cols fun i j => applyWrites i j as "") := by
  obtain ⟨grid2, hplace, hg2len, hr2len, hcells⟩ :=
    placeAll_spec as (List.replicate rows (List.replicate cols "")) rows cols
      (by simp)
      (by intro row hrow; rw [List.eq_of_mem_replicate hrow]; simp)
      hin
  unfold format_grid
  rw [hplace, Option.map_some']
  congr 1
  rw [rowStrings_eq grid2 1, hg2len]
  unfold renderSpec
  congr 1
  refine List.map_congr_left ?_
  intro i hi
  have hi2 : i < rows := List.mem_range.mp hi
  have hrl : (grid2.getD i []).length = cols := by
    apply hr2len
    rw [List.getD_eq_getElem _ _ (by omega)]
    exact List.getElem_mem _
  rw [cellStrings_eq (1 + i) (grid2.getD i []) 1, hrl]
  have hadd : 1 + i = i + 1 := by omega
  rw [hadd]
  congr 1
  refine List.map_congr_left ?_
  intro j hj
  have hj2 : j < cols := List.mem_range.mp hj
  have hcell := hcells i j hi2 hj2
  have hbase : ((List.replicate rows (List.replicate cols "")).getD i []).getD j "" = "" := by
    have hrow : (List.replicate rows (List.replicate cols "")).getD i []
        = List.replicate cols "" := by
      rw [List.getD_eq_getElem _ _ (by rw [List.length_replicate]; exact hi2),
        List.getElem_replicate]
    rw [hrow,
      List.getD_eq_getElem _ _ (by rw [List.length_replicate]; exact hj2),
      List.getElem_replicate]
  rw [hbase] at hcell
  rw [hcell]
  have haddj : 1 + j = j + 1 := by omega
  rw [haddj]

/-- Writes distribute over list append. -/
theorem applyWrites_append (i j : Nat) :
    ∀ (l1 l2 : List (Seat × String)) (v : String),
      applyWrites i j (l1 ++ l2) v = applyWrites i j l2 (applyWrites i j l1 v)
  | [], _, _ => rfl
  | _ :: l1, l2, _ => applyWrites_append i j l1 l2 _

/-- Writes that never target the cell leave it unchanged. -/
theorem applyWrites_of_not_mem (i j : Nat) :
    ∀ (l : List (Seat × String)) (v : String),
      (∀ p ∈ l, p.1 ≠ Seat.mk ((i + 1 : Nat) : Int) ((j + 1 : Nat) : Int)) →
      applyWrites i j l v = v
  | [], _, _ => rfl
  | p :: l, v, h => by
    have hp : p.1 ≠ Seat.mk ((i + 1 : Nat) : Int) ((j + 1 : Nat) : Int) := h p (by simp)
    have hstep : applyWrites i j (p :: l) v
        = applyWrites i j l (if p.1 = Seat.mk ((i + 1 : Nat) : Int) ((j + 1 : Nat) : Int)
            then p.2 else v) := rfl
    rw [hstep, if_neg hp]
    exact applyWrites_of_not_mem i j l v fun q hq => h q (by simp [hq])

/-! ## Claims about the renderer -/

/-- C8: on in-bounds assignments, `format_grid` builds the rows×cols matrix
initialised to empty, stores each pair's student at matrix[row-1][col-1]
(in order), and renders row by row as `"<label>: <display>"` cells joined by
`" | "`, rows joined by newline, with `"R{r}C{c}: -"` for cells left empty —
i.e. it produces exactly `renderSpec` of the written cells. -/
theorem format_grid_renders (assignments : List (Seat × String)) (rows cols : Nat)
    (hin : ∀ p ∈ assignments, seatInGrid rows cols p.1) :
    format_grid assignments rows cols
      = some (renderSpec rows cols fun i j => applyWrites i j assignments "") :=
  format_grid_spec assignments rows cols hin

/-- Witness for C8 at a concrete input. -/
theorem format_grid_renders_witness :
    format_grid [(⟨1, 1⟩, "X")] 1 2
      = some (renderSpec 1 2 fun i j => applyWrites i j [(⟨1, 1⟩, "X")] "") :=
  format_grid_renders [(⟨1, 1⟩, "X")] 1 2 (by decide)

/-- Counterexample to C9 as stated: with a duplicated seat, dropping the
later empty-string pair changes the rendered grid (the empty write hides the
earlier student, so the cell shows the placeholder instead of "X"). -/
theorem format_grid_empty_string_cex :
    ¬ (format_grid [(⟨1, 1⟩, "X"), (⟨1, 1⟩, "")] 1 1
        = format_grid [(⟨1, 1⟩, "X")] 1 1) := by
  decide

/-- C9 (amended): an assigned cell whose student string is empty renders as
the placeholder, exactly as if unassigned — for in-bounds assignments, if no
pair before the empty-string pair occupies the same seat, the grid renders
identically with that pair removed. -/
theorem format_grid_empty_string (as1 as2 : List (Seat × String)) (seat : Seat)
    (rows cols : Nat)
    (hin : ∀ p ∈ as1 ++ (seat, "") :: as2, seatInGrid rows cols p.1)
    (hbefore : ∀ p ∈ as1, p.1 ≠ seat) :
    format_grid (as1 ++ (seat, "") :: as2) rows cols
      = format_grid (as1 ++ as2) rows cols := by
  have hin2 : ∀ p ∈ as1 ++ as2, seatInGrid rows cols p.1 := by
    intro p hp
    apply hin
    rcases List.mem_append.mp hp with h | h
    · exact List.mem_append.mpr (Or.inl h)
    · exact List.mem_append.mpr (Or.inr (by simp [h]))
  rw [format_grid_spec _ _ _ hin, format_grid_spec _ _ _ hin2]
  have hcellfun : (fun i j => applyWrites i j (as1 ++ (seat, "") :: as2) "")
      = fun i j => applyWrites i j (as1 ++ as2) "" := by
    funext i j
    rw [applyWrites_append, applyWrites_append]
    by_cases hs : seat = Seat.mk ((i + 1 : Nat) : Int) ((j + 1 : Nat) : Int)
    · have hfirst : applyWrites i j as1 "" = "" :=
        applyWrites_of_not_mem i j as1 "" fun p hp => by
          rw [← hs]
          exact hbefore p hp
      have hstep : applyWrites i j ((seat, "") :: as2) (applyWrites i j as1 "")
          = applyWrites i j as2
              (if seat = Seat.mk ((i + 1 : Nat) : Int) ((j + 1 : Nat) : Int)
               then "" else applyWrites i j as1 "") := rfl
      rw [hstep, if_pos hs, hfirst]
    · have hstep : applyWrites i j ((seat, "") :: as2) (applyWrites i j as1 "")
          = applyWrites i j as2
              (if seat = Seat.mk ((i + 1 : Nat) : Int) ((j + 1 : Nat) : Int)
               then "" else applyWrites i j as1 "") := rfl
      rw [hstep, if_neg hs]
  rw [hcellfun]

/-- Witness for the amended C9 at a concrete input. -/
theorem format_grid_empty_string_witness :
    format_grid ([(⟨1, 2⟩, "Y")] ++ (⟨1, 1⟩, "") :: []) 1 2
      = format_grid ([(⟨1, 2⟩, "Y")] ++ []) 1 2 :=
  format_grid_empty_string [(⟨1, 2⟩, "Y")] [] ⟨1, 1⟩ 1 2 (by decide) (by decide)

/-- C10: every seat returned by `assign_seats` lies within the rows×cols
grid, so `format_grid` on the result with the same dimensions never indexes
out of bounds (it returns a rendering rather than the `IndexError` `none`). -/
theorem assign_seats_format_grid_safe (g : Int → Nat → Nat) (students : List String)
    (rows cols : Nat) (blocked : List (Int × Int)) (seed : Int)
    (pairs : List (Seat × String))
    (hok : assign_seats g students rows cols blocked seed = Except.ok pairs) :
    (∀ p ∈ pairs, seatInGrid rows cols p.1)
    ∧ ∃ rendering, format_grid pairs rows cols = some rendering := by
  have hin : ∀ p ∈ pairs, seatInGrid rows cols p.1 := by
    intro p hp
    by_cases hc : (availableSeats rows cols blocked).length < students.length
    · unfold assign_seats at hok
      rw [if_pos hc] at hok
      exact absurd hok (by simp)
    · unfold assign_seats at hok
      rw [if_neg hc] at hok
      have hpairs : pairs
          = (availableSeats rows cols blocked).zip (pyShuffle (g seed) students) := by
        injection hok with h
        exact h.symm
      subst hpairs
      obtain ⟨s, st⟩ := p
      have hmem : s ∈ availableSeats rows cols blocked := (List.of_mem_zip hp).1
      have hall : s ∈ allSeats rows cols :=
        ((mem_availableSeats rows cols blocked s).mp hmem).1
      exact (mem_allSeats rows cols s).mp hall
  exact ⟨hin, ⟨_, format_grid_spec pairs rows cols hin⟩⟩

/-- Witness for C10 at a concrete input. -/
theorem assign_seats_format_grid_safe_witness :
    (∀ p ∈ ([(⟨1, 1⟩, "B"), (⟨1, 2⟩, "A")] : List (Seat × String)), seatInGrid 1 2 p.1)
    ∧ ∃ rendering, format_grid [(⟨1, 1⟩, "B"), (⟨1, 2⟩, "A")] 1 2 = some rendering :=
  assign_seats_format_grid_safe (fun _ _ => 0) ["A", "B"] 1 2 [] 0
    [(⟨1, 1⟩, "B"), (⟨1, 2⟩, "A")] rfl
